import Mathlib

/-!
Shallow embedding of `netbyte/testserver.py`, a diagnostic TCP test server.

The Python module is sequential and byte-oriented: a connection handler runs
three line-oriented sub-tests (echo, random bytes, byte count) over one
socket.  Python 2 byte strings are modelled as `List Char` (one `Char` per
byte), a socket's incoming traffic as a `List Str` of chunks (one entry per
`recv` result, the empty chunk standing for a zero-length read, i.e. a
closed peer), and each side effect `connection.send(...)` as an element of
an output list.  `os.urandom` and the package version string are external
inputs and appear as parameters.  All definitions follow the Python source
line by line; none are simplified.
-/

set_option autoImplicit false

namespace Netbyte

/-- A Python 2 byte string: one `Char` per byte. -/
abbrev Str := List Char

/-- Membership of a byte in the class `\s` of Python 2 `re` (and of
`str.strip` / `int` whitespace stripping) on byte strings: space, tab,
newline, carriage return, vertical tab, form feed. -/
def isPySpace (c : Char) : Bool :=
  c = ' ' || c = '\t' || c = '\n' || c = '\r' || c = '\x0b' || c = '\x0c'

/-- ASCII lowercasing, the effect of `re.IGNORECASE` on byte strings. -/
def lowerAscii (c : Char) : Char :=
  if 'A' ≤ c && c ≤ 'Z' then Char.ofNat (c.toNat + 32) else c

/-- Drop the maximal leading run of whitespace bytes. -/
def dropWs : Str → Str
  | [] => []
  | c :: cs => if isPySpace c then dropWs cs else c :: cs

/-- Truthiness of `end_pattern.match(line)` for
`end_pattern = re.compile('^\s*end\s*', re.IGNORECASE)` (testserver.py
line 30).  The pattern has no `$` anchor and `re.match` anchors only at the
start, so the match succeeds exactly when, after the maximal run of leading
whitespace, the next three bytes are `e`, `n`, `d` up to ASCII case;
whatever follows them is irrelevant (the trailing `\s*` can match the empty
string). -/
def end_pattern (line : Str) : Bool :=
  match dropWs line with
  | c1 :: c2 :: c3 :: _ =>
      lowerAscii c1 = 'e' && lowerAscii c2 = 'n' && lowerAscii c3 = 'd'
  | _ => false

/-- Result of the inner line-consuming `while` loop of `run_test`
(testserver.py lines 77-85): the lines handed to `data_handler` in order,
whether a line matched `end_pattern` (`done`), and the unconsumed suffix
`full_message[start_i:]` left when the loop stops. -/
structure FrameOut where
  lines : List Str
  done : Bool
  rest : Str
deriving DecidableEq

/-- The inner `while` loop of `run_test`: `acc` holds, reversed, the bytes
of the current line read so far (initially empty, i.e. `start_i` at a line
start), and the second argument is the rest of `full_message`.  Each line
runs up to and including the first newline; a line matching `end_pattern`
sets `done` and stops; otherwise the line is recorded as handled and
scanning resumes after it. -/
def consumeFrom : Str → Str → FrameOut
  | acc, [] => ⟨[], false, acc.reverse⟩
  | acc, c :: cs =>
    if c = '\n' then
      if end_pattern (acc.reverse ++ ['\n']) then ⟨[], true, cs⟩
      else
        ⟨(acc.reverse ++ ['\n']) :: (consumeFrom [] cs).lines,
         (consumeFrom [] cs).done, (consumeFrom [] cs).rest⟩
    else consumeFrom (c :: acc) cs

/-- The line-consuming loop started at the beginning of `full_message`. -/
def consume (full : Str) : FrameOut :=
  consumeFrom [] full

/-- State left by one iteration of the outer `while not done` loop of
`run_test` after a message (a received chunk, or the carried-over
`initial_message`) has been appended to `messages` and processed
(testserver.py lines 66-93): the lines handed to the handler, the `done`
flag, the new `messages` list, and `remaining_message` (assigned only on
the `done` path). -/
structure StepOut where
  lines : List Str
  done : Bool
  msgs : List Str
  remaining : Str
deriving DecidableEq

/-- One iteration of the outer loop of `run_test` on the message `message`,
with `msgs` the chunks accumulated in `messages` so far.  Mirrors the
source: the new message is appended to `messages`; only if the new message
itself contains a newline is `full_message = ''.join(messages)` consumed
line by line; afterwards the retention check `start_i < len(message) - 1`
is evaluated against the length of the newly received `message`, not of
`full_message`, exactly as in the source. -/
def stepRun (msgs : List Str) (message : Str) : StepOut :=
  if message.contains '\n' then
    if (consume ((msgs ++ [message]).flatten)).done then
      if ((msgs ++ [message]).flatten).length
          - (consume ((msgs ++ [message]).flatten)).rest.length
          < message.length - 1 then
        ⟨(consume ((msgs ++ [message]).flatten)).lines, true,
         msgs ++ [message], (consume ((msgs ++ [message]).flatten)).rest⟩
      else
        ⟨(consume ((msgs ++ [message]).flatten)).lines, true, [], []⟩
    else
      if ((msgs ++ [message]).flatten).length
          - (consume ((msgs ++ [message]).flatten)).rest.length
          < message.length - 1 then
        ⟨(consume ((msgs ++ [message]).flatten)).lines, false,
         [(consume ((msgs ++ [message]).flatten)).rest], []⟩
      else
        ⟨(consume ((msgs ++ [message]).flatten)).lines, false, [], []⟩
  else ⟨[], false, msgs ++ [message], []⟩

/-- How a `run_test` invocation ends against a finite script of reads:
`ok remaining rest` when a line matched the termination pattern
(`remaining` is the returned `remaining_message` and `rest` the reads the
script still holds, i.e. never performed), `disconnected` when a read
returned the empty chunk (the source raises `DisconnectedError`), and
`blocked msgs` when the script ran out of chunks with the test still
waiting (a real socket would block in `recv`). -/
inductive Outcome where
  | ok (remaining : Str) (rest : List Str)
  | disconnected
  | blocked (msgs : List Str)
deriving DecidableEq

/-- Observable behaviour of a `run_test` invocation: the messages sent on
the connection in order, the lines handed to the data handler in order,
and the outcome. -/
structure RunTrace where
  sends : List Str
  lines : List Str
  out : Outcome
deriving DecidableEq

/-- The sends of the `if prompt: connection.send(prompt)` step. -/
def promptSends (prompt : Str) : List Str :=
  if prompt = [] then [] else [prompt]

/-- The outer `while not done` loop of `run_test`, reading chunks from the
script `input`.  Each iteration sends the prompt (if non-empty), takes one
chunk, raises `DisconnectedError` on an empty chunk, and otherwise runs
`stepRun`; a handler is modelled by the list of messages it sends for a
line. -/
def runLoop (prompt : Str) (handler : Str → List Str) :
    List Str → List Str → RunTrace
  | msgs, [] => ⟨promptSends prompt, [], Outcome.blocked msgs⟩
  | msgs, chunk :: rest =>
    if chunk = [] then ⟨promptSends prompt, [], Outcome.disconnected⟩
    else
      if (stepRun msgs chunk).done then
        ⟨promptSends prompt ++ (stepRun msgs chunk).lines.flatMap handler,
         (stepRun msgs chunk).lines,
         Outcome.ok (stepRun msgs chunk).remaining rest⟩
      else
        ⟨promptSends prompt ++ (stepRun msgs chunk).lines.flatMap handler
           ++ (runLoop prompt handler (stepRun msgs chunk).msgs rest).sends,
         (stepRun msgs chunk).lines
           ++ (runLoop prompt handler (stepRun msgs chunk).msgs rest).lines,
         (runLoop prompt handler (stepRun msgs chunk).msgs rest).out⟩

/-- The header `"%s:\nType 'end' to exit\n" % test_name` sent once at the
start of `run_test`. -/
def testHeader (test_name : Str) : Str :=
  test_name ++ (":\nType 'end' to exit\n").toList

/-- The nested function `run_test` of `handle_connection` (testserver.py
lines 39-95).  It sends the header, then loops.  On the first iteration a
non-empty `initial_message` is consumed in place of a read (and cleared),
which is exactly the effect of prepending it to the read script; an empty
`initial_message` means every iteration reads. -/
def run_test (test_name prompt : Str) (handler : Str → List Str)
    (initial_message : Str) (input : List Str) : RunTrace :=
  if initial_message = [] then
    ⟨testHeader test_name :: (runLoop prompt handler [] input).sends,
     (runLoop prompt handler [] input).lines,
     (runLoop prompt handler [] input).out⟩
  else
    ⟨testHeader test_name
       :: (runLoop prompt handler [] (initial_message :: input)).sends,
     (runLoop prompt handler [] (initial_message :: input)).lines,
     (runLoop prompt handler [] (initial_message :: input)).out⟩

/-- The `echo_handler` (testserver.py lines 97-102): sends the received
line back unchanged. -/
def echo_handler (line : Str) : List Str :=
  [line]

/-- Whether a byte is an ASCII decimal digit. -/
def isDigit (c : Char) : Bool :=
  '0' ≤ c && c ≤ '9'

/-- Value of a string of decimal digits. -/
def digitsVal (ds : Str) : Nat :=
  ds.foldl (fun a c => a * 10 + (c.toNat - 48)) 0

/-- Parse a non-empty all-digit string, else fail. -/
def parseDigits (ds : Str) : Option Nat :=
  if ds ≠ [] && ds.all isDigit then some (digitsVal ds) else none

/-- Strip leading and trailing whitespace bytes, as `int()` does before
parsing. -/
def stripWs (s : Str) : Str :=
  (dropWs (dropWs s).reverse).reverse

/-- The Python 2 `int(line)` call of `hex_handler`: strip surrounding
whitespace, allow one optional sign, then require a non-empty run of
decimal digits and nothing else; `none` models the raised `ValueError`. -/
def pyInt (s : Str) : Option Int :=
  match stripWs s with
  | [] => none
  | c :: cs =>
    if c = '-' then (parseDigits cs).map (fun m => -(m : Int))
    else if c = '+' then (parseDigits cs).map (fun m => (m : Int))
    else (parseDigits (c :: cs)).map (fun m => (m : Int))

/-- The warning sent by `hex_handler` when the line does not parse as a
positive integer. -/
def default_warning : Str :=
  ("You must enter a number larger than 0. Defaulting to 10.\n").toList

/-- The `hex_handler` (testserver.py lines 104-117), with `os.urandom`
abstracted as `urandom`: parse the line as an integer; if that fails or
the value is not positive, send the warning and use 10; then send
`urandom(hex_length - 1)` with a newline byte appended. -/
def hex_handler (urandom : Nat → Str) (line : Str) : List Str :=
  match pyInt line with
  | some n =>
    if n ≤ 0 then [default_warning, urandom 9 ++ ['\n']]
    else [urandom (n - 1).toNat ++ ['\n']]
  | none => [default_warning, urandom 9 ++ ['\n']]

/-- The `byte_count_handler` (testserver.py lines 119-126): sends
`"Received %d bytes.\n"` with the byte length of the received line. -/
def byte_count_handler (line : Str) : List Str :=
  [("Received ").toList ++ Nat.toDigits 10 line.length
     ++ (" bytes.\n").toList]

/-- How a whole connection session ends: all three sub-tests completed
(`remaining` is the leftover after the last one), a `DisconnectedError`
escaped, or the script of reads ran out mid-test. -/
inductive SessionOut where
  | completed (remaining : Str)
  | disconnected
  | blocked
deriving DecidableEq

/-- Observable behaviour of `handle_connection`: the messages sent on the
connection in order, and how the session ended. -/
structure SessionTrace where
  sends : List Str
  out : SessionOut
deriving DecidableEq

/-- The banner sent on connect, `'Netbyte Test Server v%s\n' % VERSION`. -/
def banner (version : Str) : Str :=
  ("Netbyte Test Server v").toList ++ version ++ ['\n']

/-- The final message sent before the server closes the connection. -/
def closing_message : Str :=
  ("Closing connection to test server\n").toList

/-- The informational message sent when bytes remain after all tests. -/
def unexpected_data_message (remaining : Str) : Str :=
  ("Received unexpected data after all tests ended: ").toList ++ remaining

/-- The body of `handle_connection` (testserver.py lines 32-141): send the
banner, run Echo, Hex, Byte Count in order, threading each run's
`remaining_message` into the next run's `initial_message`; after the last
run, report non-empty leftover bytes, send the closing message.  A
`DisconnectedError` aborts the sequence at the raising sub-test. -/
def handle_connection (version : Str) (urandom : Nat → Str)
    (input : List Str) : SessionTrace :=
  match (run_test ("Echo Test").toList [] echo_handler [] input).out with
  | Outcome.disconnected =>
    ⟨banner version :: (run_test ("Echo Test").toList [] echo_handler [] input).sends,
     SessionOut.disconnected⟩
  | Outcome.blocked _ =>
    ⟨banner version :: (run_test ("Echo Test").toList [] echo_handler [] input).sends,
     SessionOut.blocked⟩
  | Outcome.ok rem1 rest1 =>
    match (run_test ("Hex Test").toList ("Number of bytes to send:").toList
        (hex_handler urandom) rem1 rest1).out with
    | Outcome.disconnected =>
      ⟨banner version
         :: ((run_test ("Echo Test").toList [] echo_handler [] input).sends
           ++ (run_test ("Hex Test").toList ("Number of bytes to send:").toList
                (hex_handler urandom) rem1 rest1).sends),
       SessionOut.disconnected⟩
    | Outcome.blocked _ =>
      ⟨banner version
         :: ((run_test ("Echo Test").toList [] echo_handler [] input).sends
           ++ (run_test ("Hex Test").toList ("Number of bytes to send:").toList
                (hex_handler urandom) rem1 rest1).sends),
       SessionOut.blocked⟩
    | Outcome.ok rem2 rest2 =>
      match (run_test ("Byte Count Test").toList ("Bytes to count:").toList
          byte_count_handler rem2 rest2).out with
      | Outcome.disconnected =>
        ⟨banner version
           :: ((run_test ("Echo Test").toList [] echo_handler [] input).sends
             ++ (run_test ("Hex Test").toList ("Number of bytes to send:").toList
                  (hex_handler urandom) rem1 rest1).sends
             ++ (run_test ("Byte Count Test").toList ("Bytes to count:").toList
                  byte_count_handler rem2 rest2).sends),
         SessionOut.disconnected⟩
      | Outcome.blocked _ =>
        ⟨banner version
           :: ((run_test ("Echo Test").toList [] echo_handler [] input).sends
             ++ (run_test ("Hex Test").toList ("Number of bytes to send:").toList
                  (hex_handler urandom) rem1 rest1).sends
             ++ (run_test ("Byte Count Test").toList ("Bytes to count:").toList
                  byte_count_handler rem2 rest2).sends),
         SessionOut.blocked⟩
      | Outcome.ok rem3 _ =>
        ⟨banner version
           :: ((run_test ("Echo Test").toList [] echo_handler [] input).sends
             ++ (run_test ("Hex Test").toList ("Number of bytes to send:").toList
                  (hex_handler urandom) rem1 rest1).sends
             ++ (run_test ("Byte Count Test").toList ("Bytes to count:").toList
                  byte_count_handler rem2 rest2).sends
             ++ (if rem3 = [] then [] else [unexpected_data_message rem3])
             ++ [closing_message]),
         SessionOut.completed rem3⟩

/-- Observable per-connection behaviour of the accept loop of
`launch_testserver` around `handle_connection`: the sends, the operator
log lines relevant to connection teardown, and whether the server side of
the connection was closed. -/
structure ConnectionTrace where
  sends : List Str
  logs : List Str
  closed : Bool
deriving DecidableEq

/-- One pass of the accept-loop body of `launch_testserver` (testserver.py
lines 170-184) for a connection with read script `input`: a normal
completion closes the connection inside `handle_connection` and logs the
peer address; a `DisconnectedError` is caught in the loop, which logs
`'Connection closed.'` and closes the connection without sending anything
further; a blocked session is still inside `recv`. -/
def serve_connection (version : Str) (urandom : Nat → Str) (addr : Str)
    (input : List Str) : ConnectionTrace :=
  match (handle_connection version urandom input).out with
  | SessionOut.completed _ =>
    ⟨(handle_connection version urandom input).sends,
     [("Closed connection to ").toList ++ addr], true⟩
  | SessionOut.disconnected =>
    ⟨(handle_connection version urandom input).sends,
     [("Connection closed.").toList], true⟩
  | SessionOut.blocked =>
    ⟨(handle_connection version urandom input).sends, [], false⟩

/-! ### Structural lemmas about the line-consuming loop -/

/-- Every line the inner loop hands to the handler is a run of non-newline
bytes followed by a single newline, provided the partial-line accumulator
holds no newline. -/
theorem consumeFrom_mem_lines (s : Str) :
    ∀ acc : Str, '\n' ∉ acc → ∀ l ∈ (consumeFrom acc s).lines,
      ∃ body, l = body ++ ['\n'] ∧ '\n' ∉ body := by
  induction s with
  | nil =>
    intro acc _ l hl
    simp [consumeFrom] at hl
  | cons c cs ih =>
    intro acc hacc l hl
    by_cases hc : c = '\n'
    · subst hc
      by_cases he : end_pattern (acc.reverse ++ ['\n']) = true
      · simp [consumeFrom, he] at hl
      · simp [consumeFrom, he] at hl
        rcases hl with h1 | h1
        · exact ⟨acc.reverse, h1, by simpa using hacc⟩
        · exact ih [] (by simp) l h1
    · simp only [consumeFrom, if_neg hc] at hl
      refine ih (c :: acc) ?_ l hl
      simp only [List.mem_cons, not_or]
      exact ⟨fun h => hc h.symm, hacc⟩

/-- The lines an iteration hands to the handler: all the complete lines of
the joined buffer when the new message holds a newline, none otherwise. -/
theorem stepRun_lines (msgs : List Str) (message : Str) :
    (stepRun msgs message).lines
      = if message.contains '\n'
        then (consume ((msgs ++ [message]).flatten)).lines else [] := by
  unfold stepRun
  split
  · split
    · split <;> simp_all
    · split <;> simp_all
  · simp_all

/-- Every line `stepRun` hands to the handler is a run of non-newline bytes
followed by a single newline. -/
theorem stepRun_mem_lines (msgs : List Str) (message : Str) :
    ∀ l ∈ (stepRun msgs message).lines,
      ∃ body, l = body ++ ['\n'] ∧ '\n' ∉ body := by
  intro l hl
  rw [stepRun_lines] at hl
  by_cases hc : message.contains '\n' = true
  · rw [if_pos hc] at hl
    exact consumeFrom_mem_lines _ [] (by simp) l hl
  · rw [if_neg hc] at hl
    simp at hl

/-- Every line the outer read loop hands to the handler is a run of
non-newline bytes followed by a single newline. -/
theorem runLoop_mem_lines (input : List Str) :
    ∀ (prompt : Str) (handler : Str → List Str) (msgs : List Str),
      ∀ l ∈ (runLoop prompt handler msgs input).lines,
        ∃ body, l = body ++ ['\n'] ∧ '\n' ∉ body := by
  induction input with
  | nil =>
    intro prompt handler msgs l hl
    simp [runLoop] at hl
  | cons chunk rest ih =>
    intro prompt handler msgs l hl
    rw [runLoop] at hl
    by_cases hch : chunk = []
    · simp [hch] at hl
    · simp only [if_neg hch] at hl
      by_cases hd : (stepRun msgs chunk).done = true
      · simp only [hd, if_true] at hl
        exact stepRun_mem_lines msgs chunk l hl
      · simp only [Bool.not_eq_true] at hd
        simp only [hd, Bool.false_eq_true, if_false, List.mem_append] at hl
        rcases hl with hl | hl
        · exact stepRun_mem_lines msgs chunk l hl
        · exact ih prompt handler (stepRun msgs chunk).msgs l hl

/-- Every line the whole `run_test` invocation hands to the handler is a
run of non-newline bytes followed by a single newline. -/
theorem run_test_mem_lines (test_name prompt : Str) (handler : Str → List Str)
    (initial_message : Str) (input : List Str) :
    ∀ l ∈ (run_test test_name prompt handler initial_message input).lines,
      ∃ body, l = body ++ ['\n'] ∧ '\n' ∉ body := by
  intro l hl
  rw [run_test] at hl
  by_cases hi : initial_message = []
  · rw [if_pos hi] at hl
    exact runLoop_mem_lines input prompt handler [] l hl
  · rw [if_neg hi] at hl
    exact runLoop_mem_lines (initial_message :: input) prompt handler [] l hl

/-- Splitting off the first complete line: consuming a buffer that starts
with a newline-free prefix `pre` followed by a newline either stops at once
with the bytes after the newline untouched (when the line matches the
termination pattern) or records the line as handled and continues on the
bytes after the newline. -/
theorem consumeFrom_append (pre : Str) :
    ∀ (acc rest : Str), '\n' ∉ pre →
      consumeFrom acc (pre ++ '\n' :: rest)
        = if end_pattern (acc.reverse ++ pre ++ ['\n']) then ⟨[], true, rest⟩
          else ⟨(acc.reverse ++ pre ++ ['\n']) :: (consumeFrom [] rest).lines,
                (consumeFrom [] rest).done, (consumeFrom [] rest).rest⟩ := by
  induction pre with
  | nil =>
    intro acc rest _
    simp [consumeFrom]
  | cons p ps ih =>
    intro acc rest hpre
    have hp : p ≠ '\n' := by
      intro h
      exact hpre (h ▸ List.mem_cons_self p ps)
    have hrec := ih (p :: acc) rest (fun h => hpre (List.mem_cons_of_mem p h))
    simp only [List.cons_append, consumeFrom, if_neg hp, List.append_eq]
    rw [hrec]
    simp [List.append_assoc]

/-! ### The claims -/

/-- C1: the claimed chunk-boundary invariance fails on the code.  Splitting
the byte sequence "a\nbc\n" into the non-empty chunks "a\nb" and "c\n"
makes the framing loop produce the lines "a\n", "c\n", while the unsplit
sequence produces "a\n", "bc\n": the retention check
`start_i < len(message) - 1` of testserver.py line 87 silently drops the
trailing byte "b" of the first chunk. -/
theorem chunk_boundary_invariance_fails :
    (runLoop [] (fun _ => []) [] [("a\nb").toList, ("c\n").toList]).lines
        = [("a\n").toList, ("c\n").toList]
      ∧ (runLoop [] (fun _ => []) [] [("a\nbc\n").toList]).lines
        = [("a\n").toList, ("bc\n").toList]
      ∧ ¬ (runLoop [] (fun _ => []) [] [("a\nb").toList, ("c\n").toList]).lines
          = (runLoop [] (fun _ => []) [] [("a\nbc\n").toList]).lines :=
  ⟨by decide, by decide, by decide⟩

/-- C2: the claimed retention of the pending remainder fails on the code at
the quoted example.  After the chunk "a\nb" the loop keeps no pending bytes
(the remainder "b" of length one fails the check
`start_i < len(message) - 1` and is dropped), while a two-byte remainder,
as in "a\nbc", is kept. -/
theorem pending_byte_dropped :
    runLoop [] (fun _ => []) [] [("a\nb").toList]
        = ⟨[], [("a\n").toList], Outcome.blocked []⟩
      ∧ runLoop [] (fun _ => []) [] [("a\nbc").toList]
        = ⟨[], [("a\n").toList], Outcome.blocked [("bc").toList]⟩ :=
  ⟨by decide, by decide⟩

/-- C3: returning the unconsumed bytes after a termination line fails on
the code when exactly one byte follows the terminator.  A write of
"end\nm" makes `run_test` return the empty remainder, losing "m", while
"end\nmore" is returned intact. -/
theorem leftover_byte_lost :
    runLoop [] (fun _ => []) [] [("end\nm").toList]
        = ⟨[], [], Outcome.ok [] []⟩
      ∧ runLoop [] (fun _ => []) [] [("end\nmore").toList]
        = ⟨[], [], Outcome.ok (("more").toList) []⟩ :=
  ⟨by decide, by decide⟩

/-- C4 counterexample: the termination predicate accepts the line
"ending\n", which the claim says it must not match; in the runner such a
line really does terminate the sub-test. -/
theorem end_pattern_accepts_ending :
    end_pattern (("ending\n").toList) = true
      ∧ (runLoop [] (fun _ => []) [] [("ending\n").toList]).out
          = Outcome.ok [] [] :=
  ⟨by decide, by decide⟩

/-- C4 (amended): the termination predicate accepts exactly the lines that
begin, after optional whitespace, with the letters "end" in any case,
regardless of what follows — so it matches "end", "End", "  end  ",
"END\t" and also "ending", and does not match "send"; in the consuming
loop a matching first line terminates the sub-test and leaves the bytes
after it unprocessed, while a non-matching complete first line is handed
to the handler and processing continues behind it. -/
theorem end_pattern_amended_spec (pre rest : Str) (hpre : '\n' ∉ pre) :
    (end_pattern (("end\n").toList) = true
      ∧ end_pattern (("End\n").toList) = true
      ∧ end_pattern (("  end  \n").toList) = true
      ∧ end_pattern (("END\t\n").toList) = true
      ∧ end_pattern (("ending\n").toList) = true
      ∧ end_pattern (("send\n").toList) = false)
    ∧ (end_pattern (pre ++ ['\n']) = true →
        consume (pre ++ '\n' :: rest) = ⟨[], true, rest⟩)
    ∧ (end_pattern (pre ++ ['\n']) = false →
        consume (pre ++ '\n' :: rest)
          = ⟨(pre ++ ['\n']) :: (consumeFrom [] rest).lines,
             (consumeFrom [] rest).done, (consumeFrom [] rest).rest⟩) := by
  refine ⟨by decide, ?_, ?_⟩
  · intro h
    unfold consume
    rw [consumeFrom_append pre [] rest hpre]
    simp [h]
  · intro h
    unfold consume
    rw [consumeFrom_append pre [] rest hpre]
    simp [h]

/-- C4 witness: at the line "end\ntail" the termination branch of the
amended statement fires. -/
theorem end_pattern_amended_spec_witness :
    ('\n' ∉ ("end").toList)
      ∧ consume (("end").toList ++ '\n' :: ("tail").toList)
          = ⟨[], true, ("tail").toList⟩ :=
  ⟨by decide,
   (end_pattern_amended_spec (("end").toList) (("tail").toList)
     (by decide)).2.1 (by decide)⟩

/-- C8: every line delivered to a sub-test handler contains exactly one
newline byte, located at its end, for every read and every carried-over
buffer. -/
theorem handler_lines_newline_terminated (test_name prompt : Str)
    (handler : Str → List Str) (initial_message : Str) (input : List Str)
    (line : Str)
    (hline : line
      ∈ (run_test test_name prompt handler initial_message input).lines) :
    line.count '\n' = 1 ∧ line.getLast? = some '\n' := by
  obtain ⟨body, rfl, hbody⟩ :=
    run_test_mem_lines test_name prompt handler initial_message input line hline
  constructor
  · rw [List.count_append, List.count_eq_zero.mpr hbody]
    simp
  · simp

/-- C8 witness: the echo sub-test fed the single chunk "hi\n" hands the
handler the line "hi\n", which has its one newline at the end. -/
theorem handler_lines_newline_terminated_witness :
    ("hi\n").toList
      ∈ (run_test (("Echo Test").toList) [] echo_handler []
            [("hi\n").toList]).lines
      ∧ (("hi\n").toList.count '\n' = 1
          ∧ ("hi\n").toList.getLast? = some '\n') :=
  ⟨by decide,
   handler_lines_newline_terminated (("Echo Test").toList) [] echo_handler []
     [("hi\n").toList] (("hi\n").toList) (by decide)⟩

/-- C9: when the carried-over initial bytes begin with a complete line
matching the termination predicate, `run_test` terminates at once: the
whole read script is returned unconsumed (no stream read is performed), no
line reaches the handler, and only the header and the prompt are sent. -/
theorem run_test_terminates_without_read (test_name prompt : Str)
    (handler : Str → List Str) (pre extra : Str) (input : List Str)
    (hpre : '\n' ∉ pre) (hmatch : end_pattern (pre ++ ['\n']) = true) :
    ∃ r, run_test test_name prompt handler (pre ++ '\n' :: extra) input
      = ⟨[testHeader test_name] ++ promptSends prompt, [],
         Outcome.ok r input⟩ := by
  have hne : pre ++ '\n' :: extra ≠ [] := by simp
  have hcm : consume (pre ++ '\n' :: extra) = ⟨[], true, extra⟩ := by
    unfold consume
    rw [consumeFrom_append pre [] extra hpre]
    simp [hmatch]
  have hstep : ∃ ms r, stepRun [] (pre ++ '\n' :: extra) = ⟨[], true, ms, r⟩ := by
    unfold stepRun
    have hcontains : (pre ++ '\n' :: extra).contains '\n' = true := by simp
    simp only [hcontains, if_true, List.nil_append, List.flatten,
      List.append_nil, hcm]
    split
    · exact ⟨_, _, rfl⟩
    · exact ⟨_, _, rfl⟩
  obtain ⟨ms, r, hstep⟩ := hstep
  refine ⟨r, ?_⟩
  rw [run_test, if_neg hne, runLoop, if_neg hne, hstep]
  simp

/-- C9 witness: an initial buffer "end\nxy" ends the sub-test with the one
scripted read never performed. -/
theorem run_test_terminates_without_read_witness :
    ('\n' ∉ ("end").toList ∧ end_pattern (("end").toList ++ ['\n']) = true)
      ∧ ∃ r, run_test (("T").toList) [] echo_handler
            (("end").toList ++ '\n' :: ("xy").toList) [("later\n").toList]
          = ⟨[testHeader (("T").toList)] ++ promptSends [], [],
             Outcome.ok r [("later\n").toList]⟩ :=
  ⟨⟨by decide, by decide⟩,
   run_test_terminates_without_read (("T").toList) [] echo_handler
     (("end").toList) (("xy").toList) [("later\n").toList]
     (by decide) (by decide)⟩

/-- C5: a line parsing as a positive integer N makes the hex handler send
a single message of exactly N bytes ending in a newline, with no warning;
a line that fails to parse, or parses non-positive, makes it send the
warning first and then exactly 10 bytes ending in a newline. -/
theorem hex_handler_output (urandom : Nat → Str)
    (hu : ∀ k, (urandom k).length = k) (line : Str) (n : Int) :
    (pyInt line = some n → 0 < n →
       hex_handler urandom line = [urandom (n - 1).toNat ++ ['\n']]
         ∧ (urandom (n - 1).toNat ++ ['\n']).length = n.toNat
         ∧ (urandom (n - 1).toNat ++ ['\n']).getLast? = some '\n')
    ∧ ((pyInt line = none ∨ (pyInt line = some n ∧ n ≤ 0)) →
       hex_handler urandom line = [default_warning, urandom 9 ++ ['\n']]
         ∧ (urandom 9 ++ ['\n']).length = 10
         ∧ (urandom 9 ++ ['\n']).getLast? = some '\n') := by
  constructor
  · intro hp hn
    have hle : ¬ n ≤ 0 := not_le.mpr hn
    refine ⟨by simp [hex_handler, hp, hle], ?_, by simp⟩
    rw [List.length_append, hu]
    simp only [List.length_singleton]
    omega
  · intro h
    have hlen : (urandom 9 ++ ['\n']).length = 10 := by
      rw [List.length_append, hu]; rfl
    rcases h with h | ⟨h, hle⟩
    · exact ⟨by simp [hex_handler, h], hlen, by simp⟩
    · exact ⟨by simp [hex_handler, h, hle], hlen, by simp⟩

/-- C5 witness: the line "5\n" parses as 5 and yields one message of five
bytes, the fifth a newline. -/
theorem hex_handler_output_witness :
    (pyInt (("5\n").toList) = some 5 ∧ (0 : Int) < 5)
      ∧ (hex_handler (fun k => List.replicate k 'x') (("5\n").toList)
            = [(fun k => List.replicate k 'x') ((5 : Int) - 1).toNat ++ ['\n']]
          ∧ ((fun k => List.replicate k 'x') ((5 : Int) - 1).toNat
              ++ ['\n']).length = (5 : Int).toNat
          ∧ ((fun k => List.replicate k 'x') ((5 : Int) - 1).toNat
              ++ ['\n']).getLast? = some '\n') :=
  ⟨⟨by decide, by decide⟩,
   (hex_handler_output (fun k => List.replicate k 'x') (fun k => by simp)
       (("5\n").toList) 5).1 (by decide) (by decide)⟩

/-- C6: the byte-count handler sends exactly the message
"Received <N> bytes.\n", with N the decimal rendering of the received
line's length in bytes, terminator included. -/
theorem byte_count_handler_output (line : Str) (n : Nat)
    (h : line.length = n) :
    byte_count_handler line
        = [("Received ").toList ++ Nat.toDigits 10 n ++ (" bytes.\n").toList]
      ∧ byte_count_handler (("test\n").toList)
        = [("Received 5 bytes.\n").toList] := by
  subst h
  exact ⟨rfl, by decide⟩

/-- C6 witness: the five-byte line "test\n" yields the message
"Received 5 bytes.\n". -/
theorem byte_count_handler_output_witness :
    ("test\n").toList.length = 5
      ∧ byte_count_handler (("test\n").toList)
          = [("Received ").toList ++ Nat.toDigits 10 5
               ++ (" bytes.\n").toList] :=
  ⟨by decide, (byte_count_handler_output (("test\n").toList) 5 (by decide)).1⟩

/-- C7: a zero-length read makes the runner fail at once with the
disconnected outcome — the rest of the script is never read and only the
prompt was sent in that iteration — and a disconnected session makes the
accept loop close the connection and log the disconnection while sending
nothing beyond what the session had already sent; a session whose echo
sub-test disconnects stops with only the banner and the echo sub-test's
sends, the remaining sub-tests abandoned. -/
theorem zero_length_read_disconnects (version : Str) (urandom : Nat → Str)
    (addr : Str) (input : List Str) (prompt : Str) (handler : Str → List Str)
    (rest : List Str)
    (hdisc : (handle_connection version urandom input).out
        = SessionOut.disconnected) :
    (∀ msgs : List Str, runLoop prompt handler msgs ([] :: rest)
        = ⟨promptSends prompt, [], Outcome.disconnected⟩)
      ∧ serve_connection version urandom addr input
          = ⟨(handle_connection version urandom input).sends,
             [("Connection closed.").toList], true⟩
      ∧ ((run_test (("Echo Test").toList) [] echo_handler [] input).out
            = Outcome.disconnected →
          handle_connection version urandom input
            = ⟨banner version
                 :: (run_test (("Echo Test").toList) []
                      echo_handler [] input).sends,
               SessionOut.disconnected⟩) := by
  refine ⟨?_, ?_, ?_⟩
  · intro msgs
    rw [runLoop]
    simp
  · unfold serve_connection
    simp only [hdisc]
  · intro h
    unfold handle_connection
    simp only [h]

/-- C7 witness: a peer that closes the connection immediately (one
zero-length read) leaves a disconnected session which the accept loop
closes and logs without further sends. -/
theorem zero_length_read_disconnects_witness :
    (handle_connection (("1").toList) (fun k => List.replicate k 'r') [[]]).out
        = SessionOut.disconnected
      ∧ serve_connection (("1").toList) (fun k => List.replicate k 'r')
          (("peer").toList) [[]]
          = ⟨(handle_connection (("1").toList)
                (fun k => List.replicate k 'r') [[]]).sends,
             [("Connection closed.").toList], true⟩ :=
  ⟨by decide,
   (zero_length_read_disconnects (("1").toList) (fun k => List.replicate k 'r')
     (("peer").toList) [[]] [] (fun _ => []) [] (by decide)).2.1⟩

/-! ### Lemmas on whitespace stripping and integer parsing -/

/-- Dropping leading whitespace skips over a leading all-whitespace run. -/
theorem dropWs_ws_append (ws : Str) :
    ∀ t : Str, (∀ c ∈ ws, isPySpace c = true) → dropWs (ws ++ t) = dropWs t := by
  induction ws with
  | nil => intro t _; rfl
  | cons c cs ih =>
    intro t h
    have hc : isPySpace c = true := h c (List.mem_cons_self c cs)
    simp only [List.cons_append, dropWs, hc, if_true]
    exact ih t (fun d hd => h d (List.mem_cons_of_mem c hd))

/-- Dropping leading whitespace stops at a non-whitespace head. -/
theorem dropWs_cons_not_ws (c : Char) (t : Str) (h : isPySpace c = false) :
    dropWs (c :: t) = c :: t := by
  simp [dropWs, h]

/-- A decimal digit byte is not a whitespace byte. -/
theorem isDigit_not_pySpace (c : Char) (h : isDigit c = true) :
    isPySpace c = false := by
  have e1 : c ≠ ' ' := fun e => absurd (e ▸ h) (by decide)
  have e2 : c ≠ '\t' := fun e => absurd (e ▸ h) (by decide)
  have e3 : c ≠ '\n' := fun e => absurd (e ▸ h) (by decide)
  have e4 : c ≠ '\r' := fun e => absurd (e ▸ h) (by decide)
  have e5 : c ≠ '\x0b' := fun e => absurd (e ▸ h) (by decide)
  have e6 : c ≠ '\x0c' := fun e => absurd (e ▸ h) (by decide)
  simp [isPySpace, e1, e2, e3, e4, e5, e6]

/-- An all-digit string is untouched by whitespace dropping. -/
theorem dropWs_all_digits (x : Str) (h : ∀ c ∈ x, isDigit c = true) :
    dropWs x = x := by
  cases x with
  | nil => rfl
  | cons c cs =>
    exact dropWs_cons_not_ws c cs
      (isDigit_not_pySpace c (h c (List.mem_cons_self c cs)))

/-- Stripping a digit run wrapped in whitespace and a final newline leaves
exactly the digit run. -/
theorem stripWs_ws_wrapped_digits (ws1 ws2 ds : Str)
    (h1 : ∀ c ∈ ws1, isPySpace c = true) (h2 : ∀ c ∈ ws2, isPySpace c = true)
    (hne : ds ≠ []) (hds : ∀ c ∈ ds, isDigit c = true) :
    stripWs (ws1 ++ ds ++ ws2 ++ ['\n']) = ds := by
  unfold stripWs
  rw [show ws1 ++ ds ++ ws2 ++ ['\n'] = ws1 ++ (ds ++ (ws2 ++ ['\n'])) by
    simp [List.append_assoc]]
  rw [dropWs_ws_append ws1 (ds ++ (ws2 ++ ['\n'])) h1]
  obtain ⟨d, ds', rfl⟩ := List.exists_cons_of_ne_nil hne
  rw [List.cons_append, dropWs_cons_not_ws d (ds' ++ (ws2 ++ ['\n']))
      (isDigit_not_pySpace d (hds d (List.mem_cons_self d ds')))]
  rw [show (d :: (ds' ++ (ws2 ++ ['\n']))).reverse
        = '\n' :: (ws2.reverse ++ (ds'.reverse ++ [d])) by simp]
  rw [show dropWs ('\n' :: (ws2.reverse ++ (ds'.reverse ++ [d])))
        = dropWs (ws2.reverse ++ (ds'.reverse ++ [d])) by
      simp [dropWs, isPySpace]]
  rw [dropWs_ws_append ws2.reverse (ds'.reverse ++ [d])
      (fun c hc => h2 c (List.mem_reverse.mp hc))]
  rw [dropWs_all_digits (ds'.reverse ++ [d]) ?hall]
  · simp
  · intro c hc
    rcases List.mem_append.mp hc with hc | hc
    · exact hds c (List.mem_cons_of_mem d (List.mem_reverse.mp hc))
    · rw [List.mem_singleton.mp hc]
      exact hds d (List.mem_cons_self d ds')

/-- Parsing a digit run wrapped in whitespace and a final newline yields
the value of the digits. -/
theorem pyInt_ws_digits (ws1 ws2 ds : Str)
    (h1 : ∀ c ∈ ws1, isPySpace c = true) (h2 : ∀ c ∈ ws2, isPySpace c = true)
    (hne : ds ≠ []) (hds : ∀ c ∈ ds, isDigit c = true) :
    pyInt (ws1 ++ ds ++ ws2 ++ ['\n']) = some ((digitsVal ds : Nat) : Int) := by
  have hs := stripWs_ws_wrapped_digits ws1 ws2 ds h1 h2 hne hds
  obtain ⟨d, ds', rfl⟩ := List.exists_cons_of_ne_nil hne
  have hd : isDigit d = true := hds d (List.mem_cons_self d ds')
  have hm : d ≠ '-' := fun e => absurd (e ▸ hd) (by decide)
  have hp : d ≠ '+' := fun e => absurd (e ▸ hd) (by decide)
  have htl : ∀ x ∈ ds', isDigit x = true :=
    fun x hx => hds x (List.mem_cons_of_mem d hx)
  unfold pyInt
  rw [hs]
  simp [hm, hp, parseDigits, hd, htl]
  rw [if_pos htl]
  rfl

/-- C10: a line of optional whitespace, the decimal digits of a positive
integer N, optional whitespace and the newline terminator parses as N, and
the hex handler takes the non-warning path on it — the newline never by
itself makes the parse fail. -/
theorem hex_parse_positive_decimal (ws1 ws2 ds : Str) (n : Nat)
    (urandom : Nat → Str)
    (h1 : ∀ c ∈ ws1, isPySpace c = true) (h2 : ∀ c ∈ ws2, isPySpace c = true)
    (hne : ds ≠ []) (hds : ∀ c ∈ ds, isDigit c = true)
    (hval : digitsVal ds = n) (hn : 0 < n) :
    pyInt (ws1 ++ ds ++ ws2 ++ ['\n']) = some (n : Int)
      ∧ hex_handler urandom (ws1 ++ ds ++ ws2 ++ ['\n'])
          = [urandom (n - 1) ++ ['\n']] := by
  have hpy : pyInt (ws1 ++ ds ++ ws2 ++ ['\n']) = some (n : Int) := by
    rw [pyInt_ws_digits ws1 ws2 ds h1 h2 hne hds, hval]
  refine ⟨hpy, ?_⟩
  have hle : ¬ (n : Int) ≤ 0 := by omega
  unfold hex_handler
  rw [hpy]
  simp [hle]

/-- C10 witness: the line " 42\t\n" parses as 42 and takes the non-warning
path. -/
theorem hex_parse_positive_decimal_witness :
    ((∀ c ∈ ([' '] : Str), isPySpace c = true)
        ∧ (∀ c ∈ (['\t'] : Str), isPySpace c = true)
        ∧ ("42").toList ≠ []
        ∧ (∀ c ∈ ("42").toList, isDigit c = true)
        ∧ digitsVal (("42").toList) = 42 ∧ 0 < 42)
      ∧ pyInt ([' '] ++ ("42").toList ++ ['\t'] ++ ['\n']) = some (42 : Int)
      ∧ hex_handler (fun k => List.replicate k 'r')
          ([' '] ++ ("42").toList ++ ['\t'] ++ ['\n'])
          = [(fun k => List.replicate k 'r') (42 - 1) ++ ['\n']] :=
  ⟨⟨by decide, by decide, by decide, by decide, by decide, by decide⟩,
   (hex_parse_positive_decimal [' '] ['\t'] (("42").toList) 42
     (fun k => List.replicate k 'r') (by decide) (by decide) (by decide)
     (by decide) (by decide) (by decide)).1,
   (hex_parse_positive_decimal [' '] ['\t'] (("42").toList) 42
     (fun k => List.replicate k 'r') (by decide) (by decide) (by decide)
     (by decide) (by decide) (by decide)).2⟩

end Netbyte
